import Mathlib

/-!
Shallow embedding of the two source files of the YOLOv5-ShuffleNetv2 repository:

* `models/activations.py` — elementwise activation functions (SiLU, the
  memory-efficient Swish/Mish autograd functions with hand-written
  forward/backward passes, Hardswish, Mish, AconC).  Tensor operations are
  elementwise, so each module is embedded as a function `ℝ → ℝ` (with the
  per-channel parameters of AconC as extra real arguments).  `torch.sigmoid`,
  `F.softplus`, `torch.tanh` and `F.hardtanh` are embedded by their
  mathematical definitions.

* `app.py` — the Flask upload handler for POST /detect/imageDetect.  The
  handler is embedded as a pure function over an abstract environment that
  supplies the I/O primitives (HTTP fetch, base64 decode, image decode,
  colour conversion, JPEG encode, the inference entry point
  `service.app_detect`); the handler records filesystem writes and the
  inference invocation in an event trace, and fallible steps propagate their
  faults through `Except`, mirroring the absence of any try/except in the
  source.
-/

namespace Activations

/-- `torch.sigmoid`: the logistic function 1 / (1 + e^(-x)). -/
noncomputable def sigmoid (x : ℝ) : ℝ := 1 / (1 + Real.exp (-x))

/-- `F.softplus` (beta = 1): softplus(x) = ln(1 + exp(x)), as in the comment
on `Mish.forward` in activations.py. -/
noncomputable def softplus (x : ℝ) : ℝ := Real.log (1 + Real.exp x)

/-- `F.hardtanh(v, min_val, max_val)`: v clamped to [min_val, max_val]. -/
def hardtanh (v min_val max_val : ℝ) : ℝ := max min_val (min max_val v)

/-- `SiLU.forward`: `return x * torch.sigmoid(x)`. -/
noncomputable def SiLU_forward (x : ℝ) : ℝ := x * sigmoid x

/-- `MemoryEfficientSwish.F.forward`: `return x * torch.sigmoid(x)`. -/
noncomputable def MemoryEfficientSwish_forward (x : ℝ) : ℝ := x * sigmoid x

/-- `MemoryEfficientSwish.F.backward`:
`sx = torch.sigmoid(x); return grad_output * (sx * (1 + x * (1 - sx)))`. -/
noncomputable def MemoryEfficientSwish_backward (grad_output x : ℝ) : ℝ :=
  let sx := sigmoid x
  grad_output * (sx * (1 + x * (1 - sx)))

/-- `Hardswish.forward`: `return x * F.hardtanh(x + 3, 0., 6.) / 6.`. -/
noncomputable def Hardswish_forward (x : ℝ) : ℝ := x * hardtanh (x + 3) 0 6 / 6

/-- `Mish.forward`: `return x * F.softplus(x).tanh()`. -/
noncomputable def Mish_forward (x : ℝ) : ℝ := x * Real.tanh (softplus x)

/-- `MemoryEfficientMish.F.forward`:
`return x.mul(torch.tanh(F.softplus(x)))`. -/
noncomputable def MemoryEfficientMish_forward (x : ℝ) : ℝ :=
  x * Real.tanh (softplus x)

/-- `MemoryEfficientMish.F.backward`:
`sx = torch.sigmoid(x); fx = F.softplus(x).tanh();
 return grad_output * (fx + x * sx * (1 - fx * fx))`. -/
noncomputable def MemoryEfficientMish_backward (grad_output x : ℝ) : ℝ :=
  let sx := sigmoid x
  let fx := Real.tanh (softplus x)
  grad_output * (fx + x * sx * (1 - fx * fx))

/-- `AconC.forward` with per-channel parameters p1, p2, beta at one element:
`dpx = (p1 - p2) * x; return dpx * torch.sigmoid(beta * dpx) + p2 * x`. -/
noncomputable def AconC_forward (p1 p2 beta x : ℝ) : ℝ :=
  let dpx := (p1 - p2) * x
  dpx * sigmoid (beta * dpx) + p2 * x

lemma one_add_exp_pos (x : ℝ) : 0 < 1 + Real.exp x := by positivity

lemma sigmoid_pos (x : ℝ) : 0 < sigmoid x := by
  unfold sigmoid; positivity

lemma sigmoid_lt_one (x : ℝ) : sigmoid x < 1 := by
  unfold sigmoid
  rw [div_lt_one (one_add_exp_pos (-x))]
  linarith [Real.exp_pos (-x)]

lemma hasDerivAt_sigmoid (x : ℝ) :
    HasDerivAt sigmoid (sigmoid x * (1 - sigmoid x)) x := by
  have hne : (1 + Real.exp (-x)) ≠ 0 := (one_add_exp_pos (-x)).ne'
  have hexp : HasDerivAt (fun y : ℝ => 1 + Real.exp (-y)) (-Real.exp (-x)) x := by
    have h1 : HasDerivAt (fun y : ℝ => -y) (-1 : ℝ) x := (hasDerivAt_id x).neg
    have h2 := h1.exp
    have h3 := h2.const_add (1 : ℝ)
    convert h3 using 1
    ring
  have h := (hasDerivAt_const x (1 : ℝ)).div hexp hne
  have heq : (0 * (1 + Real.exp (-x)) - 1 * -Real.exp (-x)) / (1 + Real.exp (-x)) ^ 2
      = sigmoid x * (1 - sigmoid x) := by
    unfold sigmoid
    field_simp
    ring
  rw [heq] at h
  exact h

lemma hasDerivAt_softplus (x : ℝ) : HasDerivAt softplus (sigmoid x) x := by
  have hne : (1 + Real.exp x) ≠ 0 := (one_add_exp_pos x).ne'
  have hexp : HasDerivAt (fun y : ℝ => 1 + Real.exp y) (Real.exp x) x :=
    (Real.hasDerivAt_exp x).const_add (1 : ℝ)
  have h := hexp.log hne
  have heq : Real.exp x / (1 + Real.exp x) = sigmoid x := by
    unfold sigmoid
    rw [Real.exp_neg]
    rw [div_eq_div_iff (one_add_exp_pos x).ne' (by positivity)]
    field_simp
    ring
  rw [heq] at h
  exact h

lemma hasDerivAt_tanh (y : ℝ) :
    HasDerivAt Real.tanh (1 - Real.tanh y ^ 2) y := by
  have hne : Real.cosh y ≠ 0 := (Real.cosh_pos y).ne'
  have h := (Real.hasDerivAt_sinh y).div (Real.hasDerivAt_cosh y) hne
  have hfun : Real.tanh = fun t : ℝ => Real.sinh t / Real.cosh t :=
    funext fun t => Real.tanh_eq_sinh_div_cosh t
  rw [hfun]
  have heq : (Real.cosh y * Real.cosh y - Real.sinh y * Real.sinh y) / Real.cosh y ^ 2
      = 1 - (fun t : ℝ => Real.sinh t / Real.cosh t) y ^ 2 := by
    have hc := Real.cosh_sq_sub_sinh_sq y
    field_simp
    nlinarith [hc]
  rw [heq] at h
  exact h

/-- The derivative of the Swish forward pass x * sigmoid(x). -/
lemma hasDerivAt_swish_forward (x : ℝ) :
    HasDerivAt MemoryEfficientSwish_forward
      (sigmoid x * (1 + x * (1 - sigmoid x))) x := by
  have h := (hasDerivAt_id x).mul (hasDerivAt_sigmoid x)
  have heq : 1 * sigmoid x + x * (sigmoid x * (1 - sigmoid x))
      = sigmoid x * (1 + x * (1 - sigmoid x)) := by ring
  simp only [id_eq] at h
  rw [heq] at h
  exact h

/-- The derivative of the Mish forward pass x * tanh(softplus(x)). -/
lemma hasDerivAt_mish_forward (x : ℝ) :
    HasDerivAt MemoryEfficientMish_forward
      (Real.tanh (softplus x)
        + x * sigmoid x * (1 - Real.tanh (softplus x) ^ 2)) x := by
  have htanh : HasDerivAt (fun y : ℝ => Real.tanh (softplus y))
      ((1 - Real.tanh (softplus x) ^ 2) * sigmoid x) x :=
    (hasDerivAt_tanh (softplus x)).comp x (hasDerivAt_softplus x)
  have h := (hasDerivAt_id x).mul htanh
  have heq : 1 * Real.tanh (softplus x)
        + x * ((1 - Real.tanh (softplus x) ^ 2) * sigmoid x)
      = Real.tanh (softplus x)
        + x * sigmoid x * (1 - Real.tanh (softplus x) ^ 2) := by ring
  simp only [id_eq] at h
  rw [heq] at h
  exact h

lemma hardtanh_of_le_min (v : ℝ) (h : v ≤ 0) : hardtanh v 0 6 = 0 := by
  unfold hardtanh
  rw [min_eq_right (by linarith), max_eq_left h]

lemma hardtanh_of_mem (v : ℝ) (h0 : 0 ≤ v) (h6 : v ≤ 6) : hardtanh v 0 6 = v := by
  unfold hardtanh
  rw [min_eq_right h6, max_eq_right h0]

lemma hardtanh_of_ge_max (v : ℝ) (h : 6 ≤ v) : hardtanh v 0 6 = 6 := by
  unfold hardtanh
  rw [min_eq_left h, max_eq_right (by linarith)]

/-- On the middle region the Hardswish output is the quadratic x(x+3)/6. -/
lemma Hardswish_forward_middle (x : ℝ) (h3 : -3 ≤ x) (h3' : x ≤ 3) :
    Hardswish_forward x = x * (x + 3) / 6 := by
  unfold Hardswish_forward
  rw [hardtanh_of_mem (x + 3) (by linarith) (by linarith)]

end Activations

namespace Activations

/-- C1: MemoryEfficientSwish.F.backward returns
grad_output * (sigmoid(x) * (1 + x * (1 - sigmoid(x)))), and this equals
grad_output times the derivative of the forward pass x * sigmoid(x): the
hand-written backward is the exact derivative of the forward. -/
theorem memoryEfficientSwish_backward_is_derivative_of_forward (grad_output x : ℝ) :
    MemoryEfficientSwish_backward grad_output x
        = grad_output * (sigmoid x * (1 + x * (1 - sigmoid x)))
      ∧ HasDerivAt MemoryEfficientSwish_forward
          (sigmoid x * (1 + x * (1 - sigmoid x))) x
      ∧ MemoryEfficientSwish_backward grad_output x
          = grad_output * deriv MemoryEfficientSwish_forward x := by
  refine ⟨rfl, hasDerivAt_swish_forward x, ?_⟩
  rw [(hasDerivAt_swish_forward x).deriv]
  rfl

/-- C2: MemoryEfficientMish.F.backward returns
grad_output * (tanh(softplus(x)) + x * sigmoid(x) * (1 - tanh(softplus(x))^2)),
and this equals grad_output times the derivative of the forward pass
x * tanh(softplus(x)): the hand-written backward is the exact derivative of
the forward. -/
theorem memoryEfficientMish_backward_is_derivative_of_forward (grad_output x : ℝ) :
    MemoryEfficientMish_backward grad_output x
        = grad_output * (Real.tanh (softplus x)
            + x * sigmoid x * (1 - Real.tanh (softplus x) ^ 2))
      ∧ HasDerivAt MemoryEfficientMish_forward
          (Real.tanh (softplus x)
            + x * sigmoid x * (1 - Real.tanh (softplus x) ^ 2)) x
      ∧ MemoryEfficientMish_backward grad_output x
          = grad_output * deriv MemoryEfficientMish_forward x := by
  refine ⟨?_, hasDerivAt_mish_forward x, ?_⟩
  · unfold MemoryEfficientMish_backward
    ring
  · rw [(hasDerivAt_mish_forward x).deriv]
    unfold MemoryEfficientMish_backward
    ring

/-- C3: SiLU.forward computes x * sigmoid(x) and Mish.forward computes
x * tanh(softplus(x)), with sigmoid and softplus unfolded to their
closed forms 1/(1+e^(-x)) and ln(1+e^x). -/
theorem forward_matches_closed_form (x : ℝ) :
    SiLU_forward x = x * (1 / (1 + Real.exp (-x)))
      ∧ Mish_forward x = x * Real.tanh (Real.log (1 + Real.exp x)) :=
  ⟨rfl, rfl⟩

/-- C4: the memory-efficient variants compute the same function as the plain
modules: MemoryEfficientSwish forward equals SiLU.forward, and
MemoryEfficientMish forward equals Mish.forward, for every input. -/
theorem memory_efficient_variants_equal_plain (x : ℝ) :
    MemoryEfficientSwish_forward x = SiLU_forward x
      ∧ MemoryEfficientMish_forward x = Mish_forward x :=
  ⟨rfl, rfl⟩

/-- Formalisation of the phrase used by the spec, "piecewise-linear": there is a finite
set of breakpoints such that on every interval containing no breakpoint the
function satisfies the three-point collinearity (affineness) condition. -/
def IsPiecewiseLinear (f : ℝ → ℝ) : Prop :=
  ∃ S : Finset ℝ, ∀ x y z : ℝ, x < y → y < z → (∀ s ∈ S, s ∉ Set.Icc x z) →
    (z - x) * f y = (z - y) * f x + (y - x) * f z

/-- Any finite set of reals misses some open subinterval of (0, 3). -/
lemma exists_free_subinterval (S : Finset ℝ) :
    ∃ u v : ℝ, 0 ≤ u ∧ u < v ∧ v ≤ 3 ∧ ∀ s ∈ S, s ∉ Set.Ioo u v := by
  by_contra hcon
  push_neg at hcon
  set n := S.card with hn
  set N : ℝ := (n : ℝ) + 1 with hN
  have hNpos : (0 : ℝ) < N := by positivity
  have hch : ∀ k : ℕ, ∃ s : ℝ, k < n + 1 →
      s ∈ S ∧ s ∈ Set.Ioo (3 * (k : ℝ) / N) (3 * ((k : ℝ) + 1) / N) := by
    intro k
    by_cases hk : k < n + 1
    · have hkn : (k : ℝ) ≤ (n : ℝ) := by exact_mod_cast Nat.lt_succ_iff.mp hk
      have h1 : 3 * (k : ℝ) / N < 3 * ((k : ℝ) + 1) / N := by
        rw [div_lt_div_iff_of_pos_right hNpos]
        linarith
      have h2 : 3 * ((k : ℝ) + 1) / N ≤ 3 := by
        rw [div_le_iff₀ hNpos]
        rw [hN]
        linarith
      obtain ⟨s, hs1, hs2⟩ := hcon (3 * (k : ℝ) / N) (3 * ((k : ℝ) + 1) / N)
        (by positivity) h1 h2
      exact ⟨s, fun _ => ⟨hs1, hs2⟩⟩
    · exact ⟨0, fun h => absurd h hk⟩
  choose g hg using hch
  have hmaps : ∀ k ∈ Finset.range (n + 1), g k ∈ S :=
    fun k hk => (hg k (Finset.mem_range.mp hk)).1
  have hlt : ∀ a b : ℕ, a < n + 1 → b < n + 1 → a < b → g a < g b := by
    intro a b ha hb hab
    have h1 := (hg a ha).2
    have h2 := (hg b hb).2
    have hsep : 3 * ((a : ℝ) + 1) / N ≤ 3 * (b : ℝ) / N := by
      rw [div_le_div_iff_of_pos_right hNpos]
      have hc : ((a : ℝ) + 1) ≤ (b : ℝ) := by exact_mod_cast hab
      linarith
    calc g a < 3 * ((a : ℝ) + 1) / N := h1.2
      _ ≤ 3 * (b : ℝ) / N := hsep
      _ < g b := h2.1
  have hinj : Set.InjOn g (Finset.range (n + 1)) := by
    intro a ha b hb hab
    have ha' : a < n + 1 := Finset.mem_range.mp (Finset.mem_coe.mp ha)
    have hb' : b < n + 1 := Finset.mem_range.mp (Finset.mem_coe.mp hb)
    rcases lt_trichotomy a b with h | h | h
    · exact absurd hab (ne_of_lt (hlt a b ha' hb' h))
    · exact h
    · exact absurd hab.symm (ne_of_lt (hlt b a hb' ha' h))
  have hcard := Finset.card_le_card_of_injOn g hmaps hinj
  rw [Finset.card_range] at hcard
  omega

/-- Counterexample for C5: Hardswish.forward is not piecewise-linear — its
middle piece x * (x + 3) / 6 on [-3, 3] is a genuine quadratic, so the
three-point collinearity test fails inside every breakpoint-free
subinterval of (0, 3). -/
theorem hardswish_not_piecewise_linear : ¬ IsPiecewiseLinear Hardswish_forward := by
  rintro ⟨S, hS⟩
  obtain ⟨u, v, hu0, huv, hv3, hfree⟩ := exists_free_subinterval S
  have hd : (0 : ℝ) < (v - u) / 4 := by linarith
  set d : ℝ := (v - u) / 4 with hddef
  set y : ℝ := (u + v) / 2 with hydef
  have hxy : y - d < y := by linarith
  have hyz : y < y + d := by linarith
  have hxu : u < y - d := by
    rw [hydef, hddef]
    linarith
  have hzv : y + d < v := by
    rw [hydef, hddef]
    linarith
  have hfree' : ∀ s ∈ S, s ∉ Set.Icc (y - d) (y + d) := by
    intro s hs hmem
    exact hfree s hs ⟨lt_of_lt_of_le hxu hmem.1, lt_of_le_of_lt hmem.2 hzv⟩
  have heq := hS (y - d) y (y + d) hxy hyz hfree'
  have hx0 : (0 : ℝ) < y - d := by linarith
  have hz3 : y + d ≤ 3 := by linarith
  rw [Hardswish_forward_middle (y - d) (by linarith) (by linarith),
      Hardswish_forward_middle y (by linarith) (by linarith),
      Hardswish_forward_middle (y + d) (by linarith) (by linarith)] at heq
  have hcube : 0 < d * (d * d) := mul_pos hd (mul_pos hd hd)
  nlinarith [heq, hcube]

/-- C5 (amended): Hardswish.forward is the elementwise piecewise function
that is 0 for x ≤ -3, the quadratic x * (x + 3) / 6 for -3 ≤ x ≤ 3, and x
for x ≥ 3; in particular it equals 0 for x ≤ -3 and x for x ≥ 3 (the two
outer pieces are linear, the middle piece is quadratic, not linear). -/
theorem hardswish_piecewise (x : ℝ) :
    (x ≤ -3 → Hardswish_forward x = 0)
      ∧ (-3 ≤ x → x ≤ 3 → Hardswish_forward x = x * (x + 3) / 6)
      ∧ (3 ≤ x → Hardswish_forward x = x) := by
  refine ⟨?_, Hardswish_forward_middle x, ?_⟩
  · intro h
    unfold Hardswish_forward
    rw [hardtanh_of_le_min (x + 3) (by linarith)]
    ring
  · intro h
    unfold Hardswish_forward
    rw [hardtanh_of_ge_max (x + 3) (by linarith)]
    ring

/-- Witness for C5 at the concrete inputs -4, 0 and 4. -/
theorem hardswish_piecewise_witness :
    Hardswish_forward (-4) = 0
      ∧ Hardswish_forward 0 = 0 * (0 + 3) / 6
      ∧ Hardswish_forward 4 = 4 := by
  refine ⟨(hardswish_piecewise (-4)).1 (by norm_num),
          ?_, (hardswish_piecewise 4).2.2 (by norm_num)⟩
  exact (hardswish_piecewise 0).2.1 (by norm_num) (by norm_num)

/-- C6: AconC.forward is a convex combination of the two linear functions
p1 * x and p2 * x: it equals w * (p1 * x) + (1 - w) * (p2 * x) with gate
weight w = sigmoid(beta * (p1 - p2) * x) strictly between 0 and 1. -/
theorem aconC_forward_convex_combination (p1 p2 beta x : ℝ) :
    AconC_forward p1 p2 beta x
        = sigmoid (beta * ((p1 - p2) * x)) * (p1 * x)
          + (1 - sigmoid (beta * ((p1 - p2) * x))) * (p2 * x)
      ∧ 0 < sigmoid (beta * ((p1 - p2) * x))
      ∧ sigmoid (beta * ((p1 - p2) * x)) < 1 := by
  refine ⟨?_, sigmoid_pos _, sigmoid_lt_one _⟩
  unfold AconC_forward
  ring

end Activations

namespace App

/-- The form fields of a POST /detect/imageDetect request, as read by
`request.form.get` in `upload` (each is `None` when the field is absent). -/
structure UploadRequest where
  re_conf : Option String
  imageBase64Code : Option String
  imageLink : Option String

/-- The JSON object built by
`jsonify({"image_info": image_info, "re_label": re_label, "num": num})`:
exactly the three keys image_info, re_label and num. -/
structure DetectResponse where
  image_info : String
  re_label : String
  num : Int
deriving DecidableEq

/-- The unhandled faults the handler can raise: `float(None)` (TypeError),
`float(s)` on an unparseable string (ValueError), a failing `req.get`,
`base64.b64decode(None)` (TypeError), a failing `base64.b64decode`, and a
failing `PIL.Image.open`.  Each carries the underlying exception message
where the source has one; the handler has no try/except, so they propagate
to the caller unchanged. -/
inductive Fault where
  | confMissing : Fault
  | confInvalid : String → Fault
  | fetchError : String → Fault
  | b64Missing : Fault
  | b64DecodeError : String → Fault
  | imageDecodeError : String → Fault
deriving DecidableEq

/-- Observable side effects of the handler: the outgoing HTTP GET of
`req.get(image_link)`, the `cv2.imwrite(dirs, ...)` filesystem write, and
the invocation of the inference entry point `service.app_detect`. -/
inductive Event (Img Conf : Type) where
  | httpGet : String → Event Img Conf
  | fsWrite : String → Img → Event Img Conf
  | detect : Conf → Event Img Conf
deriving DecidableEq

/-- The environment of `upload`: the I/O primitives and library calls the
handler composes.  `Img`, `Bytes` and `Conf` abstract PIL/numpy images,
byte strings and Python floats; fallible primitives return `Except` with
the exception message. -/
structure Env (Img Bytes Conf : Type) where
  fatherPath : String
  parseFloat : String → Option Conf
  httpGet : String → Except String Bytes
  b64decode : String → Except String Bytes
  openImage : Bytes → Except String Img
  cvtColor : Img → Img
  appDetect : Conf → Img × String × Int
  jpegEncode : Img → Bytes
  b64encode : Bytes → String

variable {Img Bytes Conf : Type}

/-- Python truthiness of an optional string form field (`if image_link:`):
gives the string when it is present and non-empty. -/
def truthyStr : Option String → Option String
  | none => none
  | some s => if s = "" then none else some s

/-- The fixed path (`dirs` in the source, father_path followed by
/mydata/images/test/1.png) that the base64 branch writes to. -/
def fixedDir (env : Env Img Bytes Conf) : String :=
  env.fatherPath ++ "/mydata/images/test/1.png"

/-- Steps 2-4 of the handler: `service.app_detect(re_conf)`, the
BGR→RGB conversion, JPEG encoding and base64 encoding of the annotated
image, and the final JSON object. -/
def respond (env : Env Img Bytes Conf) (re_conf : Conf) : DetectResponse :=
  let r := env.appDetect re_conf
  { image_info := env.b64encode (env.jpegEncode (env.cvtColor r.1))
    re_label := r.2.1
    num := r.2.2 }

/-- The `if image_link:` branch of step 1: fetch the remote image and open
it; nothing is written to disk. -/
def linkBranch (env : Env Img Bytes Conf) (link : String) :
    List (Event Img Conf) × Except Fault Unit :=
  match env.httpGet link with
  | .error e => ([Event.httpGet link], .error (Fault.fetchError e))
  | .ok content =>
    match env.openImage content with
    | .error e => ([Event.httpGet link], .error (Fault.imageDecodeError e))
    | .ok _image => ([Event.httpGet link], .ok ())

/-- The `else` branch of step 1: decode the base64 payload, open it, and
write the colour-converted image to the fixed path `dirs`. -/
def base64Branch (env : Env Img Bytes Conf) (file : Option String) :
    List (Event Img Conf) × Except Fault Unit :=
  match file with
  | none => ([], .error Fault.b64Missing)
  | some s =>
    match env.b64decode s with
    | .error e => ([], .error (Fault.b64DecodeError e))
    | .ok bytes =>
      match env.openImage bytes with
      | .error e => ([], .error (Fault.imageDecodeError e))
      | .ok image =>
        ([Event.fsWrite (fixedDir env) (env.cvtColor image)], .ok ())

/-- The `upload` handler for POST /detect/imageDetect: parse `re_conf`
with `float(...)`, receive the image from `imageLink` or
`imageBase64Code` (step 1), call `service.app_detect` (step 2), and build
the JSON response (steps 3-4).  Returns the trace of observable events
together with either the response or the first unhandled fault. -/
def upload (env : Env Img Bytes Conf) (req : UploadRequest) :
    List (Event Img Conf) × Except Fault DetectResponse :=
  match req.re_conf with
  | none => ([], .error Fault.confMissing)
  | some s =>
    match env.parseFloat s with
    | none => ([], .error (Fault.confInvalid s))
    | some re_conf =>
      let step1 :=
        match truthyStr req.imageLink with
        | some link => linkBranch env link
        | none => base64Branch env req.imageBase64Code
      match step1.2 with
      | .error e => (step1.1, .error e)
      | .ok _ => (step1.1 ++ [Event.detect re_conf], .ok (respond env re_conf))

/-- The property claimed by C7, stated from the spec: whenever the trace of a request
invokes the inference entry point, an image was written to the fixed local
path at an earlier position of the trace. -/
def WritesBeforeDetect (env : Env Img Bytes Conf) (req : UploadRequest) : Prop :=
  ∀ c pre post, (upload env req).1 = pre ++ Event.detect c :: post →
    ∃ img, Event.fsWrite (fixedDir env) img ∈ pre

/-- All fallible steps of the handler succeed: `float(re_conf)` parses, and
the branch taken by step 1 succeeds (fetch + open for a truthy
`imageLink`, decode + open for the base64 payload otherwise). -/
def stepsSucceed (env : Env Img Bytes Conf) (req : UploadRequest) : Prop :=
  (∃ s c, req.re_conf = some s ∧ env.parseFloat s = some c) ∧
  (match truthyStr req.imageLink with
   | some link => ∃ content img,
       env.httpGet link = .ok content ∧ env.openImage content = .ok img
   | none => ∃ s bytes img, req.imageBase64Code = some s ∧
       env.b64decode s = .ok bytes ∧ env.openImage bytes = .ok img)

lemma nil_ne_append_cons {α : Type _} (pre post : List α) (a : α) :
    ([] : List α) ≠ pre ++ a :: post := by
  intro h
  exact List.cons_ne_nil _ _ (List.append_eq_nil.mp h.symm).2

/-- A concrete environment instance used for witnesses and counterexamples
(images, byte strings and parsed floats all modelled by naturals). -/
def env0 : Env Nat Nat Nat where
  fatherPath := "."
  parseFloat := fun s => if s = "0.5" then some 1 else none
  httpGet := fun _ => .ok 10
  b64decode := fun _ => .ok 20
  openImage := fun b => .ok (b + 1)
  cvtColor := fun i => i + 100
  appDetect := fun c => (c + 5, "person 2", 2)
  jpegEncode := fun i => i + 7
  b64encode := fun _ => "ENC"

/-- `env0` with a failing HTTP fetch. -/
def envFetchFail : Env Nat Nat Nat :=
  { env0 with httpGet := fun _ => .error "ConnectionError" }

/-- The remote URL used by the concrete requests below. -/
def catUrl : String := "http://example.com/cat.png"

/-- A request carrying both a non-empty imageLink and a base64 payload. -/
def reqLink : UploadRequest where
  re_conf := some "0.5"
  imageBase64Code := some "QUJD"
  imageLink := some catUrl

/-- A request carrying only a base64 payload (no imageLink). -/
def reqB64 : UploadRequest where
  re_conf := some "0.5"
  imageBase64Code := some "QUJD"
  imageLink := none

lemma upload_conf_missing {Img Bytes Conf : Type} (env : Env Img Bytes Conf)
    (b64 lnk : Option String) :
    upload env ⟨none, b64, lnk⟩ = ([], .error Fault.confMissing) := rfl

lemma upload_conf_invalid {Img Bytes Conf : Type} (env : Env Img Bytes Conf)
    (s : String) (b64 lnk : Option String) (hpf : env.parseFloat s = none) :
    upload env ⟨some s, b64, lnk⟩ = ([], .error (Fault.confInvalid s)) := by
  simp only [upload, hpf]

lemma upload_truthy_fetch_error {Img Bytes Conf : Type} (env : Env Img Bytes Conf)
    (s : String) (b64 lnk : Option String) (link m : String) (c : Conf)
    (hl : truthyStr lnk = some link) (hpf : env.parseFloat s = some c)
    (hg : env.httpGet link = .error m) :
    upload env ⟨some s, b64, lnk⟩
      = ([Event.httpGet link], .error (Fault.fetchError m)) := by
  simp only [upload, linkBranch, hpf, hl, hg]

lemma upload_truthy_open_error {Img Bytes Conf : Type} (env : Env Img Bytes Conf)
    (s : String) (b64 lnk : Option String) (link m : String) (c : Conf)
    (content : Bytes)
    (hl : truthyStr lnk = some link) (hpf : env.parseFloat s = some c)
    (hg : env.httpGet link = .ok content) (ho : env.openImage content = .error m) :
    upload env ⟨some s, b64, lnk⟩
      = ([Event.httpGet link], .error (Fault.imageDecodeError m)) := by
  simp only [upload, linkBranch, hpf, hl, hg, ho]

lemma upload_truthy_ok {Img Bytes Conf : Type} (env : Env Img Bytes Conf)
    (s : String) (b64 lnk : Option String) (link : String) (c : Conf)
    (content : Bytes) (image : Img)
    (hl : truthyStr lnk = some link) (hpf : env.parseFloat s = some c)
    (hg : env.httpGet link = .ok content) (ho : env.openImage content = .ok image) :
    upload env ⟨some s, b64, lnk⟩
      = ([Event.httpGet link, Event.detect c], .ok (respond env c)) := by
  simp only [upload, linkBranch, hpf, hl, hg, ho, List.singleton_append]

lemma upload_b64_missing {Img Bytes Conf : Type} (env : Env Img Bytes Conf)
    (s : String) (lnk : Option String) (c : Conf)
    (hl : truthyStr lnk = none) (hpf : env.parseFloat s = some c) :
    upload env ⟨some s, none, lnk⟩ = ([], .error Fault.b64Missing) := by
  simp only [upload, base64Branch, hpf, hl]

lemma upload_b64_decode_error {Img Bytes Conf : Type} (env : Env Img Bytes Conf)
    (s bs m : String) (lnk : Option String) (c : Conf)
    (hl : truthyStr lnk = none) (hpf : env.parseFloat s = some c)
    (hd : env.b64decode bs = .error m) :
    upload env ⟨some s, some bs, lnk⟩ = ([], .error (Fault.b64DecodeError m)) := by
  simp only [upload, base64Branch, hpf, hl, hd]

lemma upload_b64_open_error {Img Bytes Conf : Type} (env : Env Img Bytes Conf)
    (s bs m : String) (lnk : Option String) (c : Conf) (bytes : Bytes)
    (hl : truthyStr lnk = none) (hpf : env.parseFloat s = some c)
    (hd : env.b64decode bs = .ok bytes) (ho : env.openImage bytes = .error m) :
    upload env ⟨some s, some bs, lnk⟩
      = ([], .error (Fault.imageDecodeError m)) := by
  simp only [upload, base64Branch, hpf, hl, hd, ho]

lemma upload_b64_ok {Img Bytes Conf : Type} (env : Env Img Bytes Conf)
    (s bs : String) (lnk : Option String) (c : Conf) (bytes : Bytes) (image : Img)
    (hl : truthyStr lnk = none) (hpf : env.parseFloat s = some c)
    (hd : env.b64decode bs = .ok bytes) (ho : env.openImage bytes = .ok image) :
    upload env ⟨some s, some bs, lnk⟩
      = ([Event.fsWrite (fixedDir env) (env.cvtColor image), Event.detect c],
         .ok (respond env c)) := by
  simp only [upload, base64Branch, hpf, hl, hd, ho, List.singleton_append]

/-- In the truthy-imageLink branch no filesystem write ever occurs. -/
lemma upload_no_fswrite_of_truthy {Img Bytes Conf : Type} (env : Env Img Bytes Conf)
    (req : UploadRequest) (link : String)
    (hl : truthyStr req.imageLink = some link) :
    ∀ p img, Event.fsWrite p img ∉ (upload env req).1 := by
  obtain ⟨rc, b64, lnk⟩ := req
  intro p img
  rcases rc with _ | s
  · rw [upload_conf_missing env b64 lnk]; simp
  rcases hpf : env.parseFloat s with _ | c
  · rw [upload_conf_invalid env s b64 lnk hpf]; simp
  rcases hg : env.httpGet link with m | content
  · rw [upload_truthy_fetch_error env s b64 lnk link m c hl hpf hg]; simp
  rcases ho : env.openImage content with m | image
  · rw [upload_truthy_open_error env s b64 lnk link m c content hl hpf hg ho]; simp
  · rw [upload_truthy_ok env s b64 lnk link c content image hl hpf hg ho]; simp

/-- In the truthy-imageLink branch the base64 payload is never consulted. -/
lemma upload_b64_irrelevant_of_truthy {Img Bytes Conf : Type} (env : Env Img Bytes Conf)
    (req : UploadRequest) (link : String)
    (hl : truthyStr req.imageLink = some link) :
    ∀ b, upload env { req with imageBase64Code := b } = upload env req := by
  obtain ⟨rc, b64, lnk⟩ := req
  intro b
  rcases rc with _ | s
  · rw [upload_conf_missing env b lnk, upload_conf_missing env b64 lnk]
  rcases hpf : env.parseFloat s with _ | c
  · rw [upload_conf_invalid env s b lnk hpf, upload_conf_invalid env s b64 lnk hpf]
  rcases hg : env.httpGet link with m | content
  · rw [upload_truthy_fetch_error env s b lnk link m c hl hpf hg,
        upload_truthy_fetch_error env s b64 lnk link m c hl hpf hg]
  rcases ho : env.openImage content with m | image
  · rw [upload_truthy_open_error env s b lnk link m c content hl hpf hg ho,
        upload_truthy_open_error env s b64 lnk link m c content hl hpf hg ho]
  · rw [upload_truthy_ok env s b lnk link c content image hl hpf hg ho,
        upload_truthy_ok env s b64 lnk link c content image hl hpf hg ho]

/-- In the truthy-imageLink branch the trace is empty (the handler faulted
before step 1) or starts with the HTTP fetch of the link. -/
lemma upload_head_of_truthy {Img Bytes Conf : Type} (env : Env Img Bytes Conf)
    (req : UploadRequest) (link : String)
    (hl : truthyStr req.imageLink = some link) :
    (upload env req).1 = []
      ∨ (upload env req).1.head? = some (Event.httpGet link) := by
  obtain ⟨rc, b64, lnk⟩ := req
  rcases rc with _ | s
  · rw [upload_conf_missing env b64 lnk]; left; rfl
  rcases hpf : env.parseFloat s with _ | c
  · rw [upload_conf_invalid env s b64 lnk hpf]; left; rfl
  rcases hg : env.httpGet link with m | content
  · rw [upload_truthy_fetch_error env s b64 lnk link m c hl hpf hg]; right; rfl
  rcases ho : env.openImage content with m | image
  · rw [upload_truthy_open_error env s b64 lnk link m c content hl hpf hg ho]; right; rfl
  · rw [upload_truthy_ok env s b64 lnk link c content image hl hpf hg ho]; right; rfl

/-- Counterexample for C7: on a request that supplies the image via
imageLink (here with a base64 payload also present), the handler reaches
the inference call with no filesystem write at all — the claim that every
request writes the image to the fixed local path before invoking
service.app_detect fails on the imageLink branch. -/
theorem upload_writes_before_detect_counterexample :
    ¬ WritesBeforeDetect env0 reqLink := by
  intro h
  obtain ⟨img, himg⟩ := h 1 [Event.httpGet catUrl] [] (by rfl)
  simp at himg

/-- C7 (amended): when the image arrives as imageBase64Code (imageLink
absent or empty), the upload handler writes the received image to the
fixed local path before invoking the inference entry point
service.app_detect; when a non-empty imageLink is supplied no file is
written (see the counterexample). -/
theorem upload_writes_before_detect_of_base64 {Img Bytes Conf : Type}
    (env : Env Img Bytes Conf) (req : UploadRequest)
    (h : App.truthyStr req.imageLink = none) :
    WritesBeforeDetect env req := by
  intro c pre post htrace
  obtain ⟨rc, b64, link⟩ := req
  simp only at h
  rcases hrc : rc with _ | s
  · simp only [upload, hrc] at htrace
    exact absurd htrace (nil_ne_append_cons _ _ _)
  rcases hpf : env.parseFloat s with _ | conf
  · simp only [upload, hrc, hpf] at htrace
    exact absurd htrace (nil_ne_append_cons _ _ _)
  rcases hb : b64 with _ | bs
  · simp only [upload, base64Branch, hrc, hpf, hb, h] at htrace
    exact absurd htrace (nil_ne_append_cons _ _ _)
  rcases hd : env.b64decode bs with e | bytes
  · simp only [upload, base64Branch, hrc, hpf, hb, h, hd] at htrace
    exact absurd htrace (nil_ne_append_cons _ _ _)
  rcases ho : env.openImage bytes with e | image
  · simp only [upload, base64Branch, hrc, hpf, hb, h, hd, ho] at htrace
    exact absurd htrace (nil_ne_append_cons _ _ _)
  simp only [upload, base64Branch, hrc, hpf, hb, h, hd, ho, List.singleton_append] at htrace
  rcases pre with _ | ⟨p, pre'⟩
  · simp at htrace
  · rw [List.cons_append] at htrace
    have h1 := (List.cons.injEq _ _ _ _).mp htrace
    refine ⟨env.cvtColor image, ?_⟩
    rw [← h1.1]
    exact List.mem_cons_self _ _

/-- Witness for the amended C7 at the concrete base64-only request. -/
theorem upload_writes_before_detect_of_base64_witness :
    App.truthyStr reqB64.imageLink = none ∧ WritesBeforeDetect env0 reqB64 :=
  ⟨rfl, upload_writes_before_detect_of_base64 env0 reqB64 rfl⟩

/-- C8: the handler performs no error recovery: it returns a JSON response
exactly when every step succeeds (re_conf present and parseable, and the
fetch+open of imageLink resp. the decode+open of the base64 payload
succeed), and a failing step propagates its fault unchanged — e.g. a
network failure in `req.get(image_link)` makes the whole request fail with
that very fault, with no retry and no alternate response. -/
theorem upload_no_error_recovery {Img Bytes Conf : Type} :
    (∀ (env : Env Img Bytes Conf) (req : UploadRequest),
        (∃ r, (upload env req).2 = .ok r) ↔ stepsSucceed env req)
      ∧ (∀ (env : Env Img Bytes Conf) (req : UploadRequest) (s : String) (c : Conf)
            (link m : String),
          req.re_conf = some s → env.parseFloat s = some c →
          truthyStr req.imageLink = some link → env.httpGet link = .error m →
          upload env req = ([Event.httpGet link], .error (Fault.fetchError m))) := by
  constructor
  · intro env req
    obtain ⟨rc, b64, lnk⟩ := req
    constructor
    · rintro ⟨r, hr⟩
      rcases rc with _ | s
      · rw [upload_conf_missing env b64 lnk] at hr
        exact absurd hr (by simp)
      rcases hpf : env.parseFloat s with _ | c
      · rw [upload_conf_invalid env s b64 lnk hpf] at hr
        exact absurd hr (by simp)
      simp only [stepsSucceed]
      refine ⟨⟨s, c, rfl, hpf⟩, ?_⟩
      rcases hl : truthyStr lnk with _ | link
      · simp only [hl]
        rcases b64 with _ | bs
        · rw [upload_b64_missing env s lnk c hl hpf] at hr
          exact absurd hr (by simp)
        rcases hd : env.b64decode bs with m | bytes
        · rw [upload_b64_decode_error env s bs m lnk c hl hpf hd] at hr
          exact absurd hr (by simp)
        rcases ho : env.openImage bytes with m | image
        · rw [upload_b64_open_error env s bs m lnk c bytes hl hpf hd ho] at hr
          exact absurd hr (by simp)
        exact ⟨bs, bytes, image, rfl, hd, ho⟩
      · simp only [hl]
        rcases hg : env.httpGet link with m | content
        · rw [upload_truthy_fetch_error env s b64 lnk link m c hl hpf hg] at hr
          exact absurd hr (by simp)
        rcases ho : env.openImage content with m | image
        · rw [upload_truthy_open_error env s b64 lnk link m c content hl hpf hg ho] at hr
          exact absurd hr (by simp)
        exact ⟨content, image, rfl, ho⟩
    · intro hsteps
      obtain ⟨⟨s, c, hrc, hpf⟩, h2⟩ := hsteps
      have hrc' : rc = some s := hrc
      subst hrc'
      rcases hl : truthyStr lnk with _ | link
      · simp only [stepsSucceed, hl] at h2
        obtain ⟨bs, bytes, image, hb, hd, ho⟩ := h2
        have hb' : b64 = some bs := hb
        subst hb'
        exact ⟨respond env c, by rw [upload_b64_ok env s bs lnk c bytes image hl hpf hd ho]⟩
      · simp only [stepsSucceed, hl] at h2
        obtain ⟨content, image, hg, ho⟩ := h2
        exact ⟨respond env c,
          by rw [upload_truthy_ok env s b64 lnk link c content image hl hpf hg ho]⟩
  · intro env req s c link m hrc hpf hl hg
    obtain ⟨rc, b64, lnk⟩ := req
    have hrc' : rc = some s := hrc
    subst hrc'
    exact upload_truthy_fetch_error env s b64 lnk link m c hl hpf hg

/-- Witness for C8: the success iff at a concrete succeeding request, and
the fault propagation at a concrete request whose fetch fails. -/
theorem upload_no_error_recovery_witness :
    ((∃ r, (upload env0 reqB64).2 = .ok r) ↔ stepsSucceed env0 reqB64)
      ∧ upload envFetchFail reqLink
          = ([Event.httpGet catUrl], .error (Fault.fetchError "ConnectionError")) :=
  ⟨upload_no_error_recovery.1 env0 reqB64,
   upload_no_error_recovery.2 envFetchFail reqLink "0.5" 1 catUrl "ConnectionError"
     rfl rfl rfl rfl⟩

/-- C9: on success the handler returns the JSON object with exactly the
keys image_info, re_label and num, where image_info is the base64 encoding
of the JPEG encoding of the (colour-converted) annotated image produced by
service.app_detect, and re_label and num are the label string and count
returned by that same call. -/
theorem upload_success_response {Img Bytes Conf : Type}
    (env : Env Img Bytes Conf) (req : UploadRequest) (r : DetectResponse)
    (hr : (upload env req).2 = .ok r) :
    ∃ s c, req.re_conf = some s ∧ env.parseFloat s = some c
      ∧ r.image_info
          = env.b64encode (env.jpegEncode (env.cvtColor (env.appDetect c).1))
      ∧ r.re_label = (env.appDetect c).2.1
      ∧ r.num = (env.appDetect c).2.2 := by
  obtain ⟨rc, b64, lnk⟩ := req
  rcases rc with _ | s
  · rw [upload_conf_missing env b64 lnk] at hr
    exact absurd hr (by simp)
  rcases hpf : env.parseFloat s with _ | c
  · rw [upload_conf_invalid env s b64 lnk hpf] at hr
    exact absurd hr (by simp)
  refine ⟨s, c, rfl, hpf, ?_⟩
  rcases hl : truthyStr lnk with _ | link
  · rcases b64 with _ | bs
    · rw [upload_b64_missing env s lnk c hl hpf] at hr
      exact absurd hr (by simp)
    rcases hd : env.b64decode bs with m | bytes
    · rw [upload_b64_decode_error env s bs m lnk c hl hpf hd] at hr
      exact absurd hr (by simp)
    rcases ho : env.openImage bytes with m | image
    · rw [upload_b64_open_error env s bs m lnk c bytes hl hpf hd ho] at hr
      exact absurd hr (by simp)
    rw [upload_b64_ok env s bs lnk c bytes image hl hpf hd ho] at hr
    have hresp : respond env c = r := by simpa using hr
    subst hresp
    exact ⟨rfl, rfl, rfl⟩
  · rcases hg : env.httpGet link with m | content
    · rw [upload_truthy_fetch_error env s b64 lnk link m c hl hpf hg] at hr
      exact absurd hr (by simp)
    rcases ho : env.openImage content with m | image
    · rw [upload_truthy_open_error env s b64 lnk link m c content hl hpf hg ho] at hr
      exact absurd hr (by simp)
    rw [upload_truthy_ok env s b64 lnk link c content image hl hpf hg ho] at hr
    have hresp : respond env c = r := by simpa using hr
    subst hresp
    exact ⟨rfl, rfl, rfl⟩

/-- Witness for C9 at the concrete base64-only request. -/
theorem upload_success_response_witness :
    ∃ s c, reqB64.re_conf = some s ∧ env0.parseFloat s = some c
      ∧ (DetectResponse.mk "ENC" "person 2" 2).image_info
          = env0.b64encode (env0.jpegEncode (env0.cvtColor (env0.appDetect c).1))
      ∧ (DetectResponse.mk "ENC" "person 2" 2).re_label = (env0.appDetect c).2.1
      ∧ (DetectResponse.mk "ENC" "person 2" 2).num = (env0.appDetect c).2.2 :=
  upload_success_response env0 reqB64 (DetectResponse.mk "ENC" "person 2" 2) rfl

/-- C10: when a request supplies a non-empty imageLink, the handler uses
only the remote URL: the event trace starts with the HTTP fetch of the
link (or is empty when the handler faulted before step 1), the run is
unchanged under any replacement of the imageBase64Code field, and no image
file is written to disk; conversely a filesystem write occurs only when
imageLink is absent or empty. -/
theorem upload_link_overrides_base64 {Img Bytes Conf : Type} :
    (∀ (env : Env Img Bytes Conf) (req : UploadRequest) (link : String),
        truthyStr req.imageLink = some link →
          ((upload env req).1 = []
              ∨ (upload env req).1.head? = some (Event.httpGet link))
            ∧ (∀ b, upload env { req with imageBase64Code := b } = upload env req)
            ∧ ∀ p img, Event.fsWrite p img ∉ (upload env req).1)
      ∧ (∀ (env : Env Img Bytes Conf) (req : UploadRequest) (p : String) (img : Img),
          Event.fsWrite p img ∈ (upload env req).1 → truthyStr req.imageLink = none) := by
  constructor
  · intro env req link hl
    exact ⟨upload_head_of_truthy env req link hl,
           upload_b64_irrelevant_of_truthy env req link hl,
           upload_no_fswrite_of_truthy env req link hl⟩
  · intro env req p img hmem
    rcases hl : truthyStr req.imageLink with _ | link
    · rfl
    · exact absurd hmem (upload_no_fswrite_of_truthy env req link hl p img)

/-- Witness for C10 at the concrete request carrying both fields. -/
theorem upload_link_overrides_base64_witness :
    Event.fsWrite (fixedDir env0) 121 ∉ (upload env0 reqLink).1
      ∧ (upload env0 reqLink).1.head? = some (Event.httpGet catUrl)
      ∧ upload env0 { reqLink with imageBase64Code := some "Zm9v" }
          = upload env0 reqLink := by
  have h := upload_link_overrides_base64.1 env0 reqLink catUrl rfl
  refine ⟨h.2.2 (fixedDir env0) 121, ?_, h.2.1 (some "Zm9v")⟩
  rcases h.1 with h0 | h0
  · exact absurd h0 (by decide)
  · exact h0

end App
